import Mathlib

/-!
# Verification of the IDF (Intensity–Duration–Frequency) analysis core

Shallow embedding of the statistical pipeline of `lib/core/idf.py` and
`lib/core/utils.py`: per-duration Gumbel parameter fitting by the method of
moments, Gumbel quantile estimation of rainfall depths and intensities,
log-log least-squares fitting of the Montana model `I = b·t^(-a)`, Montana
reconstruction, annual-maxima extraction by rolling sums, point queries, and
the file-loading dispatch.  Machine floats are modelled as real numbers.
-/

namespace IDFVerify

/-! ## Basic column statistics

`pandas.Series.mean` is the arithmetic mean; `pandas.Series.var` uses
`ddof = 1`, i.e. the unbiased sample variance with divisor `n - 1`
(`IDF._summary`, idf.py lines 172-173). -/

/-- Arithmetic mean of a column, embedding `pandas.Series.mean`. -/
noncomputable def seriesMean (xs : List ℝ) : ℝ := xs.sum / xs.length

/-- Sample variance with divisor `n - 1`, embedding `pandas.Series.var`
(default `ddof = 1`). -/
noncomputable def seriesVar (xs : List ℝ) : ℝ :=
  ((xs.map fun x => (x - seriesMean xs) ^ 2).sum) / ((xs.length : ℝ) - 1)

/-- Modelled from the spec: the constant `EULER_MASCHERONI` is imported from
`lib/const.py`, which is not among the provided source files; the spec fixes
it as the Euler–Mascheroni constant γ ≈ 0.5772156649. -/
noncomputable def EULER_MASCHERONI : ℝ := Real.eulerMascheroniConstant

/-- Embedding of the inner helper `gumbel_parameters` of `IDF._summary`
(idf.py lines 175-190): `beta = sqrt(6 * variance) / π`,
`mu = mean - beta * EULER_MASCHERONI`; returns `(mu, beta)`. -/
noncomputable def gumbel_parameters (mean variance : ℝ) : ℝ × ℝ :=
  let beta := Real.sqrt (6 * variance) / Real.pi
  let mu := mean - beta * EULER_MASCHERONI
  (mu, beta)

/-! ## Pipeline state

The annual-maxima table of one station: `cols` are the duration columns in
hours (validated to be positive integers by `IDF._load_dataframe`), `data c`
is the column of annual maxima for duration `c`, and `return_periods` is the
vector of return periods handed to the `IDF` constructor. -/

structure IDFState where
  cols : List ℕ
  data : ℕ → List ℝ
  return_periods : List ℝ

/-- `mu` entry of `IDF.summary` for duration column `c` (idf.py lines 196-211). -/
noncomputable def summary_mu (s : IDFState) (c : ℕ) : ℝ :=
  (gumbel_parameters (seriesMean (s.data c)) (seriesVar (s.data c))).1

/-- `beta` entry of `IDF.summary` for duration column `c` (idf.py lines 196-211). -/
noncomputable def summary_beta (s : IDFState) (c : ℕ) : ℝ :=
  (gumbel_parameters (seriesMean (s.data c)) (seriesVar (s.data c))).2

/-- Embedding of `Utils.gumbel_var` (utils.py lines 14-18). -/
noncomputable def gumbel_var (F : ℝ) : ℝ := - Real.log (- Real.log F)

/-- The reduced Gumbel variate `Y(T)`: `IDF._rain_estimator` computes
`F = 1 - 1/T` and `Y = Utils.gumbel_var F` once per return period
(idf.py lines 240-247), before looping over the duration columns. -/
noncomputable def reduced_variate (T : ℝ) : ℝ := gumbel_var (1 - 1 / T)

/-- Entry of `IDF.rain_estimator` at duration column `c` and return period
`T` (idf.py lines 252-261): `mu + beta * Y(T)`. -/
noncomputable def rain_estimator (s : IDFState) (c : ℕ) (T : ℝ) : ℝ :=
  summary_mu s c + summary_beta s c * reduced_variate T

/-- Entry of `IDF.intensity_estimator` at duration column `c` and return
period `T` (idf.py lines 289-298): the depth divided by
`duration_hours = int(column)`. -/
noncomputable def intensity_estimator (s : IDFState) (c : ℕ) (T : ℝ) : ℝ :=
  rain_estimator s c T / (c : ℝ)

/-! ## Sums over an index list

`scipy.stats.linregress` receives two equal-length arrays; in
`IDF._montana_parameters` both arrays are indexed by the duration columns, so
we represent them as coordinate maps over a common index list. -/

/-- Sum of `f` over the entries of `l`. -/
noncomputable def lsum (l : List α) (f : α → ℝ) : ℝ := (l.map f).sum

@[simp] theorem lsum_nil (f : α → ℝ) : lsum ([] : List α) f = 0 := rfl

@[simp] theorem lsum_cons (a : α) (l : List α) (f : α → ℝ) :
    lsum (a :: l) f = f a + lsum l f := by
  simp [lsum]

theorem lsum_congr {l : List α} {f g : α → ℝ} (h : ∀ a ∈ l, f a = g a) :
    lsum l f = lsum l g := by
  induction l with
  | nil => rfl
  | cons a t ih =>
    simp only [lsum_cons, h a (List.mem_cons_self a t),
      ih fun b hb => h b (List.mem_cons_of_mem a hb)]

theorem lsum_add (l : List α) (f g : α → ℝ) :
    lsum l (fun a => f a + g a) = lsum l f + lsum l g := by
  induction l with
  | nil => simp
  | cons a t ih => simp [ih]; ring

theorem lsum_mul_left (l : List α) (c : ℝ) (f : α → ℝ) :
    lsum l (fun a => c * f a) = c * lsum l f := by
  induction l with
  | nil => simp
  | cons a t ih => simp [ih]; ring

theorem lsum_const (l : List α) (c : ℝ) :
    lsum l (fun _ => c) = l.length * c := by
  induction l with
  | nil => simp
  | cons a t ih => simp [ih]; ring

theorem lsum_nonneg {l : List α} {f : α → ℝ} (h : ∀ a ∈ l, 0 ≤ f a) :
    0 ≤ lsum l f := by
  induction l with
  | nil => simp
  | cons a t ih =>
    have := h a (List.mem_cons_self a t)
    have := ih fun b hb => h b (List.mem_cons_of_mem a hb)
    simp only [lsum_cons]
    linarith

theorem lsum_pos_of_mem {l : List α} {f : α → ℝ} (h0 : ∀ a ∈ l, 0 ≤ f a)
    {a : α} (ha : a ∈ l) (hfa : 0 < f a) : 0 < lsum l f := by
  induction l with
  | nil => exact absurd ha (List.not_mem_nil a)
  | cons b t ih =>
    have hb := h0 b (List.mem_cons_self b t)
    have ht : ∀ c ∈ t, 0 ≤ f c := fun c hc => h0 c (List.mem_cons_of_mem b hc)
    rcases List.mem_cons.mp ha with rfl | hat
    · have := lsum_nonneg ht
      simp only [lsum_cons]
      linarith
    · have := ih ht hat
      simp only [lsum_cons]
      linarith

theorem map_eq_ofFn (l : List α) (f : α → ℝ) :
    l.map f = List.ofFn fun i => f (l.get i) := by
  conv_lhs => rw [← List.ofFn_get l]
  rw [List.map_ofFn]
  rfl

theorem lsum_eq_sum_fin (l : List α) (f : α → ℝ) :
    lsum l f = ∑ i : Fin l.length, f (l.get i) := by
  rw [lsum, map_eq_ofFn, List.sum_ofFn]

/-- Cauchy–Schwarz for list sums. -/
theorem lsum_cauchy_schwarz (l : List α) (f g : α → ℝ) :
    (lsum l fun a => f a * g a) ^ 2 ≤
      (lsum l fun a => f a ^ 2) * lsum l fun a => g a ^ 2 := by
  rw [lsum_eq_sum_fin, lsum_eq_sum_fin, lsum_eq_sum_fin]
  exact Finset.sum_mul_sq_le_sq_mul_sq Finset.univ _ _

/-! ## Embedding of `scipy.stats.linregress`

`IDF._montana_parameters` (idf.py lines 344-347) calls
`scipy.stats.linregress(log_hours, log_intensities[period])`.  scipy computes
`ssxm, ssxym, _, ssym = np.cov(x, y, bias=1).flat` (the biased moments, i.e.
divided by `n`), sets `r = 0` when `ssxm == 0 or ssym == 0` and otherwise
`r = ssxym / sqrt(ssxm * ssym)` clamped into `[-1, 1]`, and returns
`slope = ssxym / ssxm`, `intercept = ymean - slope * xmean`. -/

/-- Mean of `f` over `l`. -/
noncomputable def meanOf (l : List α) (f : α → ℝ) : ℝ := lsum l f / l.length

/-- Sum of squared deviations from the mean (unnormalized). -/
noncomputable def devSq (l : List α) (x : α → ℝ) : ℝ :=
  lsum l fun a => (x a - meanOf l x) ^ 2

/-- Sum of products of deviations from the means (unnormalized). -/
noncomputable def devProd (l : List α) (x y : α → ℝ) : ℝ :=
  lsum l fun a => (x a - meanOf l x) * (y a - meanOf l y)

structure LinregressResult where
  slope : ℝ
  intercept : ℝ
  rvalue : ℝ

open Classical in
/-- Embedding of `scipy.stats.linregress` on arrays `l.map x` and `l.map y`. -/
noncomputable def linregress (l : List α) (x y : α → ℝ) : LinregressResult :=
  let n : ℝ := l.length
  let ssxm := devSq l x / n
  let ssym := devSq l y / n
  let ssxym := devProd l x y / n
  let r0 := if ssxm = 0 ∨ ssym = 0 then 0 else ssxym / Real.sqrt (ssxm * ssym)
  { slope := ssxym / ssxm
    intercept := meanOf l y - ssxym / ssxm * meanOf l x
    rvalue := max (-1) (min 1 r0) }

/-! ## Ordinary least squares and the Pearson correlation (spec-side notions)

The spec describes `IDF._montana_parameters` as "ordinary least-squares
regression" with "r² = (Pearson correlation)²"; `SSE` and `pearson` are the
textbook definitions those words denote. -/

/-- Sum of squared residuals of the line `y = intercept + slope * x`. -/
noncomputable def SSE (l : List α) (x y : α → ℝ) (slope intercept : ℝ) : ℝ :=
  lsum l fun a => (y a - (intercept + slope * x a)) ^ 2

/-- The Pearson correlation coefficient of the data set. -/
noncomputable def pearson (l : List α) (x y : α → ℝ) : ℝ :=
  devProd l x y / Real.sqrt (devSq l x * devSq l y)

theorem length_cast_pos {l : List α} (hn : l ≠ []) : (0 : ℝ) < l.length := by
  have : l.length ≠ 0 := fun h => hn (List.length_eq_zero.mp h)
  exact_mod_cast Nat.pos_of_ne_zero this

theorem lsum_center (l : List α) (x : α → ℝ) (hn : l ≠ []) :
    lsum l (fun a => x a - meanOf l x) = 0 := by
  have hlen : (l.length : ℝ) ≠ 0 := (length_cast_pos hn).ne'
  have h1 : lsum l (fun a => x a - meanOf l x) =
      lsum l x + lsum l (fun _ => -meanOf l x) := by
    rw [← lsum_add l x fun _ => -meanOf l x]
    exact lsum_congr fun a _ => by ring
  rw [h1, lsum_const, meanOf]
  field_simp
  ring

/-- Decomposition of the sum of squared residuals around the centered data. -/
theorem SSE_decomp (l : List α) (x y : α → ℝ) (hn : l ≠ []) (s c : ℝ) :
    SSE l x y s c =
      devSq l y - 2 * s * devProd l x y + s ^ 2 * devSq l x +
        l.length * (meanOf l y - s * meanOf l x - c) ^ 2 := by
  have hx0 : lsum l (fun a => x a - meanOf l x) = 0 := lsum_center l x hn
  have hy0 : lsum l (fun a => y a - meanOf l y) = 0 := lsum_center l y hn
  have h1 : SSE l x y s c =
      lsum l (fun a =>
        ((y a - meanOf l y) ^ 2 +
            (-(2 * s)) * ((x a - meanOf l x) * (y a - meanOf l y)) +
            s ^ 2 * (x a - meanOf l x) ^ 2) +
          ((2 * (meanOf l y - s * meanOf l x - c)) *
              ((y a - meanOf l y) + (-s) * (x a - meanOf l x)) +
            (meanOf l y - s * meanOf l x - c) ^ 2)) := by
    refine lsum_congr fun a _ => by ring
  rw [h1,
    lsum_add l
      (fun a => (y a - meanOf l y) ^ 2 +
        (-(2 * s)) * ((x a - meanOf l x) * (y a - meanOf l y)) +
        s ^ 2 * (x a - meanOf l x) ^ 2)
      (fun a => (2 * (meanOf l y - s * meanOf l x - c)) *
          ((y a - meanOf l y) + (-s) * (x a - meanOf l x)) +
        (meanOf l y - s * meanOf l x - c) ^ 2),
    lsum_add l
      (fun a => (y a - meanOf l y) ^ 2 +
        (-(2 * s)) * ((x a - meanOf l x) * (y a - meanOf l y)))
      (fun a => s ^ 2 * (x a - meanOf l x) ^ 2),
    lsum_add l (fun a => (y a - meanOf l y) ^ 2)
      (fun a => (-(2 * s)) * ((x a - meanOf l x) * (y a - meanOf l y))),
    lsum_mul_left l (-(2 * s)) (fun a => (x a - meanOf l x) * (y a - meanOf l y)),
    lsum_mul_left l (s ^ 2) (fun a => (x a - meanOf l x) ^ 2),
    lsum_add l
      (fun a => (2 * (meanOf l y - s * meanOf l x - c)) *
        ((y a - meanOf l y) + (-s) * (x a - meanOf l x)))
      (fun _ => (meanOf l y - s * meanOf l x - c) ^ 2),
    lsum_mul_left l (2 * (meanOf l y - s * meanOf l x - c))
      (fun a => (y a - meanOf l y) + (-s) * (x a - meanOf l x)),
    lsum_add l (fun a => y a - meanOf l y) (fun a => (-s) * (x a - meanOf l x)),
    lsum_mul_left l (-s) (fun a => x a - meanOf l x),
    lsum_const l ((meanOf l y - s * meanOf l x - c) ^ 2),
    hx0, hy0]
  rw [devSq, devSq, devProd]
  ring

theorem devSq_nonneg (l : List α) (x : α → ℝ) : 0 ≤ devSq l x :=
  lsum_nonneg fun _ _ => sq_nonneg _

/-- The fitted slope, written without the biased `1/n` normalization. -/
theorem linregress_slope_eq (l : List α) (x y : α → ℝ) (hn : l ≠ [])
    (hSxx : devSq l x ≠ 0) :
    (linregress l x y).slope = devProd l x y / devSq l x := by
  have hlen : (l.length : ℝ) ≠ 0 := (length_cast_pos hn).ne'
  show devProd l x y / (l.length : ℝ) / (devSq l x / (l.length : ℝ)) = _
  field_simp

theorem linregress_intercept_eq (l : List α) (x y : α → ℝ) (hn : l ≠ [])
    (hSxx : devSq l x ≠ 0) :
    (linregress l x y).intercept =
      meanOf l y - devProd l x y / devSq l x * meanOf l x := by
  show meanOf l y - devProd l x y / (l.length : ℝ) / (devSq l x / (l.length : ℝ)) *
      meanOf l x = _
  rw [show devProd l x y / (l.length : ℝ) / (devSq l x / (l.length : ℝ)) =
      (linregress l x y).slope from rfl, linregress_slope_eq l x y hn hSxx]

/-- The fitted line minimizes the sum of squared residuals: `linregress`
performs ordinary least-squares regression. -/
theorem linregress_ols (l : List α) (x y : α → ℝ) (hn : l ≠ [])
    (hSxx : 0 < devSq l x) (sl ic : ℝ) :
    SSE l x y (linregress l x y).slope (linregress l x y).intercept ≤
      SSE l x y sl ic := by
  have hlen : (0 : ℝ) < l.length := length_cast_pos hn
  rw [linregress_slope_eq l x y hn hSxx.ne', linregress_intercept_eq l x y hn hSxx.ne',
    SSE_decomp l x y hn, SSE_decomp l x y hn]
  have key : devSq l x * (sl - devProd l x y / devSq l x) ^ 2 =
      sl ^ 2 * devSq l x - 2 * sl * devProd l x y +
        devProd l x y ^ 2 / devSq l x := by
    field_simp
    ring
  have key2 : devSq l y - 2 * (devProd l x y / devSq l x) * devProd l x y +
      (devProd l x y / devSq l x) ^ 2 * devSq l x =
      devSq l y - devProd l x y ^ 2 / devSq l x := by
    field_simp
    ring
  have h1 : 0 ≤ devSq l x * (sl - devProd l x y / devSq l x) ^ 2 :=
    mul_nonneg hSxx.le (sq_nonneg _)
  have h2 : 0 ≤ (l.length : ℝ) * (meanOf l y - sl * meanOf l x - ic) ^ 2 :=
    mul_nonneg hlen.le (sq_nonneg _)
  have h3 : (meanOf l y - devProd l x y / devSq l x * meanOf l x -
      (meanOf l y - devProd l x y / devSq l x * meanOf l x)) = 0 := by ring
  rw [h3]
  nlinarith [key, key2, h1, h2]

/-- The `rvalue` returned by `linregress` agrees with the Pearson correlation
coefficient: scipy's zero guard and `[-1, 1]` clamp are inert in exact real
arithmetic. -/
theorem linregress_rvalue_eq_pearson (l : List α) (x y : α → ℝ) (hn : l ≠ []) :
    (linregress l x y).rvalue = pearson l x y := by
  have hlen : (0 : ℝ) < l.length := length_cast_pos hn
  have hSx : 0 ≤ devSq l x := devSq_nonneg l x
  have hSy : 0 ≤ devSq l y := devSq_nonneg l y
  simp only [linregress]
  rcases eq_or_lt_of_le hSx with hx0 | hx0
  · rw [if_pos (Or.inl (by rw [← hx0, zero_div]))]
    rw [pearson, ← hx0, zero_mul, Real.sqrt_zero, div_zero]
    norm_num
  · rcases eq_or_lt_of_le hSy with hy0 | hy0
    · rw [if_pos (Or.inr (by rw [← hy0, zero_div]))]
      rw [pearson, ← hy0, mul_zero, Real.sqrt_zero, div_zero]
      norm_num
    · rw [if_neg (by
        push_neg
        exact ⟨div_ne_zero hx0.ne' hlen.ne', div_ne_zero hy0.ne' hlen.ne'⟩)]
      have hprod : 0 < devSq l x * devSq l y := mul_pos hx0 hy0
      have hsqrt : Real.sqrt (devSq l x / (l.length : ℝ) * (devSq l y / (l.length : ℝ))) =
          Real.sqrt (devSq l x * devSq l y) / (l.length : ℝ) := by
        rw [show devSq l x / (l.length : ℝ) * (devSq l y / (l.length : ℝ)) =
            devSq l x * devSq l y / (l.length : ℝ) ^ 2 by ring,
          Real.sqrt_div hprod.le, Real.sqrt_sq hlen.le]
      have hsqrtpos : 0 < Real.sqrt (devSq l x * devSq l y) :=
        Real.sqrt_pos.mpr hprod
      have hr : devProd l x y / (l.length : ℝ) /
          (Real.sqrt (devSq l x * devSq l y) / (l.length : ℝ)) = pearson l x y := by
        rw [pearson]
        field_simp
      have hCS : devProd l x y ^ 2 ≤ devSq l x * devSq l y := by
        have h := lsum_cauchy_schwarz l (fun a => x a - meanOf l x)
          (fun a => y a - meanOf l y)
        rw [devProd, devSq, devSq]
        exact h
      have habs : |pearson l x y| ≤ 1 := by
        rw [pearson, abs_div, abs_of_nonneg (Real.sqrt_nonneg _)]
        rw [div_le_one hsqrtpos]
        exact Real.abs_le_sqrt hCS
      rw [hsqrt, hr, min_eq_right (abs_le.mp habs).2, max_eq_right (abs_le.mp habs).1]

/-! ## Behaviour of `linregress` on special data sets -/

/-- A data set with two members of distinct `x`-value has positive `devSq`. -/
theorem devSq_pos (l : List α) (x : α → ℝ) {a b : α} (ha : a ∈ l) (hb : b ∈ l)
    (hne : x a ≠ x b) : 0 < devSq l x := by
  have key : ∀ t ∈ l, (0 : ℝ) ≤ (x t - meanOf l x) ^ 2 := fun _ _ => sq_nonneg _
  rw [devSq]
  rcases ne_or_eq (x a) (meanOf l x) with h | h
  · exact lsum_pos_of_mem key ha
      (lt_of_le_of_ne (sq_nonneg _) (Ne.symm (pow_ne_zero 2 (sub_ne_zero.mpr h))))
  · have h2 : x b - meanOf l x ≠ 0 :=
      sub_ne_zero.mpr fun hh => hne (by rw [h, ← hh])
    exact lsum_pos_of_mem key hb
      (lt_of_le_of_ne (sq_nonneg _) (Ne.symm (pow_ne_zero 2 h2)))

theorem meanOf_linear (l : List α) (x y : α → ℝ) (m k : ℝ) (hn : l ≠ [])
    (hxy : ∀ a ∈ l, y a = k + m * x a) :
    meanOf l y = k + m * meanOf l x := by
  have hlen : (l.length : ℝ) ≠ 0 := (length_cast_pos hn).ne'
  rw [meanOf, lsum_congr hxy, lsum_add l (fun _ => k) (fun a => m * x a),
    lsum_const, lsum_mul_left, meanOf]
  field_simp
  ring

theorem devProd_linear (l : List α) (x y : α → ℝ) (m k : ℝ) (hn : l ≠ [])
    (hxy : ∀ a ∈ l, y a = k + m * x a) :
    devProd l x y = m * devSq l x := by
  have hym := meanOf_linear l x y m k hn hxy
  rw [devProd, lsum_congr (g := fun a => m * (x a - meanOf l x) ^ 2)
    (fun a ha => by rw [hxy a ha, hym]; ring), lsum_mul_left, devSq]

theorem devSq_linear (l : List α) (x y : α → ℝ) (m k : ℝ) (hn : l ≠ [])
    (hxy : ∀ a ∈ l, y a = k + m * x a) :
    devSq l y = m ^ 2 * devSq l x := by
  have hym := meanOf_linear l x y m k hn hxy
  rw [devSq, lsum_congr (g := fun a => m ^ 2 * (x a - meanOf l x) ^ 2)
    (fun a ha => by rw [hxy a ha, hym]; ring), lsum_mul_left, devSq]

/-- On exactly linear data the fitted slope is the true slope. -/
theorem linregress_linear_slope (l : List α) (x y : α → ℝ) (m k : ℝ) (hn : l ≠ [])
    (hSxx : 0 < devSq l x) (hxy : ∀ a ∈ l, y a = k + m * x a) :
    (linregress l x y).slope = m := by
  rw [linregress_slope_eq l x y hn hSxx.ne', devProd_linear l x y m k hn hxy,
    mul_div_assoc, div_self hSxx.ne', mul_one]

/-- On exactly linear data the fitted intercept is the true intercept. -/
theorem linregress_linear_intercept (l : List α) (x y : α → ℝ) (m k : ℝ) (hn : l ≠ [])
    (hSxx : 0 < devSq l x) (hxy : ∀ a ∈ l, y a = k + m * x a) :
    (linregress l x y).intercept = k := by
  rw [linregress_intercept_eq l x y hn hSxx.ne', devProd_linear l x y m k hn hxy,
    meanOf_linear l x y m k hn hxy, mul_div_assoc, div_self hSxx.ne', mul_one]
  ring

/-- On exactly linear data of nonzero slope, `r² = 1`. -/
theorem linregress_linear_rsq (l : List α) (x y : α → ℝ) (m k : ℝ) (hn : l ≠ [])
    (hSxx : 0 < devSq l x) (hxy : ∀ a ∈ l, y a = k + m * x a) (hm : m ≠ 0) :
    (linregress l x y).rvalue ^ 2 = 1 := by
  rw [linregress_rvalue_eq_pearson l x y hn, pearson,
    devProd_linear l x y m k hn hxy, devSq_linear l x y m k hn hxy,
    show devSq l x * (m ^ 2 * devSq l x) = (m * devSq l x) ^ 2 by ring,
    Real.sqrt_sq_eq_abs, abs_mul, abs_of_pos hSxx, div_pow, mul_pow, mul_pow, sq_abs]
  exact div_self (mul_ne_zero (pow_ne_zero 2 hm) (pow_ne_zero 2 hSxx.ne'))

/-- On a constant `y` column the r-value returned by `linregress` is `0`
(scipy's `ssym == 0` guard). -/
theorem linregress_rvalue_of_const (l : List α) (x y : α → ℝ) (k : ℝ) (hn : l ≠ [])
    (hy : ∀ a ∈ l, y a = k) : (linregress l x y).rvalue = 0 := by
  have hlen : (l.length : ℝ) ≠ 0 := (length_cast_pos hn).ne'
  have hym : meanOf l y = k := by
    rw [meanOf, lsum_congr hy, lsum_const]
    field_simp
  have hSy : devSq l y = 0 := by
    rw [devSq, lsum_congr (g := fun _ => (0 : ℝ))
      (fun a ha => by rw [hy a ha, hym]; ring), lsum_const, mul_zero]
  rw [linregress_rvalue_eq_pearson l x y hn, pearson, hSy, mul_zero,
    Real.sqrt_zero, div_zero]

/-! ## The Montana fit (`IDF._montana_parameters`, idf.py lines 329-371)

The code log-transforms the duration columns and, per return period, the
intensity column, runs `linregress`, and stores `alpha = -slope`,
`beta = exp(intercept)`, `r_squared = r_value ** 2`.  The fit is stated over
an arbitrary intensity column `I`; the pipeline instantiates `I` with the
column of `intensity_estimator` at a return period. -/

/-- The log-log regression of `IDF._montana_parameters` on intensity column `I`. -/
noncomputable def montana_regression (cols : List ℕ) (I : ℕ → ℝ) : LinregressResult :=
  linregress cols (fun c => Real.log (c : ℝ)) (fun c => Real.log (I c))

/-- Montana `a` (stored as `alpha = -slope`). -/
noncomputable def montana_alpha (cols : List ℕ) (I : ℕ → ℝ) : ℝ :=
  -(montana_regression cols I).slope

/-- Montana `b` (stored as `beta = np.exp(intercept)`). -/
noncomputable def montana_bparam (cols : List ℕ) (I : ℕ → ℝ) : ℝ :=
  Real.exp (montana_regression cols I).intercept

/-- Montana `r²` (stored as `r_value ** 2`). -/
noncomputable def montana_r2 (cols : List ℕ) (I : ℕ → ℝ) : ℝ :=
  (montana_regression cols I).rvalue ^ 2

/-- The intensity column of the pipeline at return period `T`. -/
noncomputable def intensity_column (s : IDFState) (T : ℝ) : ℕ → ℝ :=
  fun c => intensity_estimator s c T

/-- Entry of `IDF.montana_params` column `a` at return period `T`. -/
noncomputable def montana_a (s : IDFState) (T : ℝ) : ℝ :=
  montana_alpha s.cols (intensity_column s T)

/-- Entry of `IDF.montana_params` column `b` at return period `T`. -/
noncomputable def montana_b (s : IDFState) (T : ℝ) : ℝ :=
  montana_bparam s.cols (intensity_column s T)

/-- Entry of `IDF.montana_params` column `r²` at return period `T`. -/
noncomputable def montana_rsquared (s : IDFState) (T : ℝ) : ℝ :=
  montana_r2 s.cols (intensity_column s T)

/-- Montana reconstruction `I = b * t^(-a)` (`IDF._montana_estimation`,
idf.py lines 402-422, and the body of `IDF.get_intensity`). -/
noncomputable def montana_eval (cols : List ℕ) (I : ℕ → ℝ) (t : ℝ) : ℝ :=
  montana_bparam cols I * t ^ (-(montana_alpha cols I))

/-- Entry of `IDF.montana_estimator` at duration column `c` and return
period `T` (idf.py lines 405-422): `beta * float(duration) ** (-alpha)`. -/
noncomputable def montana_estimation (s : IDFState) (c : ℕ) (T : ℝ) : ℝ :=
  montana_eval s.cols (intensity_column s T) (c : ℝ)

theorem log_cast_injOn {c1 c2 : ℕ} (h1 : 1 ≤ c1) (h2 : 1 ≤ c2) (hne : c1 ≠ c2) :
    Real.log (c1 : ℝ) ≠ Real.log (c2 : ℝ) := by
  have h1' : (0 : ℝ) < (c1 : ℝ) := by exact_mod_cast Nat.lt_of_lt_of_le Nat.zero_lt_one h1
  have h2' : (0 : ℝ) < (c2 : ℝ) := by exact_mod_cast Nat.lt_of_lt_of_le Nat.zero_lt_one h2
  intro h
  apply hne
  have := congrArg Real.exp h
  rw [Real.exp_log h1', Real.exp_log h2'] at this
  exact_mod_cast this

/-! ## Concrete station used by the witnesses -/

/-- A small concrete pipeline state: six standard duration columns, the
annual-maxima values of the spec's worked scenario, return periods 2/5/10. -/
noncomputable def wState : IDFState where
  cols := [1, 2, 3, 6, 12, 24]
  data := fun _ => [10, 20, 15, 25, 30]
  return_periods := [2, 5, 10]

/-! ## Claims C1, C2, C5 -/

/-- C1: for every duration column of the annual-maxima table, the Gumbel fit
computes the sample mean and the unbiased sample variance (divisor n−1) of
that column, and returns scale `beta = sqrt(6*variance)/π` and location
`mu = mean − beta*γ` with γ the Euler–Mascheroni constant. -/
theorem C1_gumbel_fit (s : IDFState) (c : ℕ) (hc : c ∈ s.cols) :
    summary_beta s c = Real.sqrt (6 * seriesVar (s.data c)) / Real.pi ∧
    summary_mu s c =
      seriesMean (s.data c) - summary_beta s c * Real.eulerMascheroniConstant ∧
    seriesMean (s.data c) = (s.data c).sum / ((s.data c).length : ℝ) ∧
    seriesVar (s.data c) =
      ((s.data c).map fun x => (x - seriesMean (s.data c)) ^ 2).sum /
        (((s.data c).length : ℝ) - 1) :=
  ⟨rfl, rfl, rfl, rfl⟩

theorem C1_gumbel_fit_witness :
    1 ∈ wState.cols ∧
    (summary_beta wState 1 = Real.sqrt (6 * seriesVar (wState.data 1)) / Real.pi ∧
    summary_mu wState 1 =
      seriesMean (wState.data 1) - summary_beta wState 1 * Real.eulerMascheroniConstant ∧
    seriesMean (wState.data 1) = (wState.data 1).sum / ((wState.data 1).length : ℝ) ∧
    seriesVar (wState.data 1) =
      ((wState.data 1).map fun x => (x - seriesMean (wState.data 1)) ^ 2).sum /
        (((wState.data 1).length : ℝ) - 1)) :=
  ⟨by decide, C1_gumbel_fit wState 1 (by decide)⟩

/-- C2: for every return period `T` in the analyzed set, the reduced variate
`Y = -ln(-ln(1 - 1/T))` is a single value computed from `T` alone, and every
duration column's depth estimate is `mu + beta * Y` with that same `Y`. -/
theorem C2_depth_estimate (s : IDFState) (T : ℝ) (hT : T ∈ s.return_periods) :
    reduced_variate T = - Real.log (- Real.log (1 - 1 / T)) ∧
    ∀ c ∈ s.cols,
      rain_estimator s c T = summary_mu s c + summary_beta s c * reduced_variate T :=
  ⟨rfl, fun _ _ => rfl⟩

theorem C2_depth_estimate_witness :
    (10 : ℝ) ∈ wState.return_periods ∧
    (reduced_variate 10 = - Real.log (- Real.log (1 - 1 / 10)) ∧
    ∀ c ∈ wState.cols,
      rain_estimator wState c 10 =
        summary_mu wState c + summary_beta wState c * reduced_variate 10) :=
  ⟨by norm_num [wState], C2_depth_estimate wState 10 (by norm_num [wState])⟩

/-- C5: for every duration column `d` (in hours) and every analyzed return
period `T`, the intensity table entry is the depth table entry divided by the
duration `d`. -/
theorem C5_intensity_is_depth_over_duration (s : IDFState) (c : ℕ) (T : ℝ)
    (hc : c ∈ s.cols) (hT : T ∈ s.return_periods) :
    intensity_estimator s c T = rain_estimator s c T / (c : ℝ) :=
  rfl

theorem C5_intensity_is_depth_over_duration_witness :
    2 ∈ wState.cols ∧ (5 : ℝ) ∈ wState.return_periods ∧
    intensity_estimator wState 2 5 = rain_estimator wState 2 5 / (2 : ℝ) :=
  ⟨by decide, by norm_num [wState],
    C5_intensity_is_depth_over_duration wState 2 5 (by decide) (by norm_num [wState])⟩

/-- C3: for every analyzed return period, the Montana fit performs
ordinary least-squares regression of ln(intensity) on ln(duration) over all
duration columns (the fitted line minimizes the sum of squared residuals)
and returns `a = -slope`, `b = exp(intercept)`, `r² = (Pearson correlation)²`.
The duration columns are validated positive integers, at least two of them
distinct. -/
theorem C3_montana_ols (s : IDFState) (T : ℝ) (hT : T ∈ s.return_periods)
    (hpos : ∀ c ∈ s.cols, 1 ≤ c)
    (hdist : ∃ c1 ∈ s.cols, ∃ c2 ∈ s.cols, c1 ≠ c2) :
    (∀ sl ic : ℝ,
      SSE s.cols (fun c => Real.log (c : ℝ)) (fun c => Real.log (intensity_column s T c))
        (montana_regression s.cols (intensity_column s T)).slope
        (montana_regression s.cols (intensity_column s T)).intercept ≤
      SSE s.cols (fun c => Real.log (c : ℝ)) (fun c => Real.log (intensity_column s T c))
        sl ic) ∧
    montana_a s T = -(montana_regression s.cols (intensity_column s T)).slope ∧
    montana_b s T = Real.exp (montana_regression s.cols (intensity_column s T)).intercept ∧
    montana_rsquared s T =
      pearson s.cols (fun c => Real.log (c : ℝ))
        (fun c => Real.log (intensity_column s T c)) ^ 2 := by
  obtain ⟨c1, hc1, c2, hc2, hne⟩ := hdist
  have hn : s.cols ≠ [] := by
    intro h
    rw [h] at hc1
    exact List.not_mem_nil _ hc1
  have hSxx : 0 < devSq s.cols (fun c => Real.log (c : ℝ)) :=
    devSq_pos _ _ hc1 hc2 (log_cast_injOn (hpos c1 hc1) (hpos c2 hc2) hne)
  refine ⟨fun sl ic => linregress_ols _ _ _ hn hSxx sl ic, rfl, rfl, ?_⟩
  rw [montana_rsquared, montana_r2, montana_regression,
    linregress_rvalue_eq_pearson _ _ _ hn]

theorem C3_montana_ols_witness :
    ((2 : ℝ) ∈ wState.return_periods ∧ (∀ c ∈ wState.cols, 1 ≤ c) ∧
      (∃ c1 ∈ wState.cols, ∃ c2 ∈ wState.cols, c1 ≠ c2)) ∧
    ((∀ sl ic : ℝ,
      SSE wState.cols (fun c => Real.log (c : ℝ))
        (fun c => Real.log (intensity_column wState 2 c))
        (montana_regression wState.cols (intensity_column wState 2)).slope
        (montana_regression wState.cols (intensity_column wState 2)).intercept ≤
      SSE wState.cols (fun c => Real.log (c : ℝ))
        (fun c => Real.log (intensity_column wState 2 c)) sl ic) ∧
    montana_a wState 2 =
      -(montana_regression wState.cols (intensity_column wState 2)).slope ∧
    montana_b wState 2 =
      Real.exp (montana_regression wState.cols (intensity_column wState 2)).intercept ∧
    montana_rsquared wState 2 =
      pearson wState.cols (fun c => Real.log (c : ℝ))
        (fun c => Real.log (intensity_column wState 2 c)) ^ 2) :=
  ⟨⟨by norm_num [wState], by decide, ⟨1, by decide, 2, by decide, by decide⟩⟩,
    C3_montana_ols wState 2 (by norm_num [wState]) (by decide)
      ⟨1, by decide, 2, by decide, by decide⟩⟩

/-- C4 counterexample: the claim as stated fails for the log-linear relation
`intensity = 1 * t^(-0)` (a constant table, allowed by "for some a0 and
b0 > 0"): on durations 1 and 2 the hypothesis of the claim holds, but scipy's
zero-variance guard makes the fitted `r²` equal `0`, not `1`. -/
theorem C4_roundtrip_counterexample :
    (∀ c ∈ ([1, 2] : List ℕ), (fun _ : ℕ => (1 : ℝ)) c = 1 * (c : ℝ) ^ (-(0 : ℝ))) ∧
    (0 : ℝ) < 1 ∧
    (1 ∈ ([1, 2] : List ℕ) ∧ 2 ∈ ([1, 2] : List ℕ) ∧ (1 : ℕ) ≠ 2) ∧
    montana_r2 [1, 2] (fun _ => (1 : ℝ)) = 0 ∧ (0 : ℝ) ≠ 1 := by
  refine ⟨fun c _ => by rw [neg_zero, Real.rpow_zero, mul_one],
    one_pos, ⟨by decide, by decide, by decide⟩, ?_, by norm_num⟩
  rw [montana_r2, montana_regression,
    linregress_rvalue_of_const [1, 2] _ _ 0 (by simp)
      (fun a _ => by simp [Real.log_one])]
  norm_num

/-- C4 (amended): if the intensity table satisfies
`intensity(t, T) = b0 * t^(-a0)` exactly with `b0 > 0` and `a0 ≠ 0`, over at
least two distinct positive-integer durations, then the Montana fit recovers
`a = a0`, `b = b0` with `r² = 1`, and the Montana-reconstructed intensity
table equals the input intensity table.  (The amendment: the claim as frozen
also allowed `a0 = 0`, where the fitted `r²` is `0`.) -/
theorem C4_roundtrip_amended (cols : List ℕ) (I : ℕ → ℝ) (a0 b0 : ℝ)
    (hb0 : 0 < b0) (ha0 : a0 ≠ 0)
    (hpos : ∀ c ∈ cols, 1 ≤ c)
    (hdist : ∃ c1 ∈ cols, ∃ c2 ∈ cols, c1 ≠ c2)
    (hI : ∀ c ∈ cols, I c = b0 * (c : ℝ) ^ (-a0)) :
    montana_alpha cols I = a0 ∧ montana_bparam cols I = b0 ∧
    montana_r2 cols I = 1 ∧
    ∀ c ∈ cols, montana_eval cols I (c : ℝ) = I c := by
  obtain ⟨c1, hc1, c2, hc2, hne⟩ := hdist
  have hn : cols ≠ [] := by
    intro h
    rw [h] at hc1
    exact List.not_mem_nil _ hc1
  have hSxx : 0 < devSq cols (fun c => Real.log (c : ℝ)) :=
    devSq_pos _ _ hc1 hc2 (log_cast_injOn (hpos c1 hc1) (hpos c2 hc2) hne)
  have hxy : ∀ c ∈ cols,
      Real.log (I c) = Real.log b0 + (-a0) * Real.log (c : ℝ) := by
    intro c hc
    have hcpos : (0 : ℝ) < (c : ℝ) := by
      exact_mod_cast Nat.lt_of_lt_of_le Nat.zero_lt_one (hpos c hc)
    rw [hI c hc,
      Real.log_mul hb0.ne' (Real.rpow_pos_of_pos hcpos (-a0)).ne',
      Real.log_rpow hcpos]
  have hslope : (montana_regression cols I).slope = -a0 :=
    linregress_linear_slope cols _ _ (-a0) (Real.log b0) hn hSxx hxy
  have hintercept : (montana_regression cols I).intercept = Real.log b0 :=
    linregress_linear_intercept cols _ _ (-a0) (Real.log b0) hn hSxx hxy
  have ha : montana_alpha cols I = a0 := by
    rw [montana_alpha, hslope, neg_neg]
  have hb : montana_bparam cols I = b0 := by
    rw [montana_bparam, hintercept, Real.exp_log hb0]
  refine ⟨ha, hb, ?_, ?_⟩
  · rw [montana_r2]
    exact linregress_linear_rsq cols _ _ (-a0) (Real.log b0) hn hSxx hxy
      (neg_ne_zero.mpr ha0)
  · intro c hc
    rw [montana_eval, ha, hb, hI c hc]

theorem C4_roundtrip_amended_witness :
    ((0 : ℝ) < 2 ∧ (1 : ℝ) ≠ 0 ∧ (∀ c ∈ ([1, 2] : List ℕ), 1 ≤ c) ∧
      (∃ c1 ∈ ([1, 2] : List ℕ), ∃ c2 ∈ ([1, 2] : List ℕ), c1 ≠ c2) ∧
      (∀ c ∈ ([1, 2] : List ℕ),
        (fun t : ℕ => 2 * (t : ℝ) ^ (-(1 : ℝ))) c = 2 * (c : ℝ) ^ (-(1 : ℝ)))) ∧
    (montana_alpha [1, 2] (fun t : ℕ => 2 * (t : ℝ) ^ (-(1 : ℝ))) = 1 ∧
    montana_bparam [1, 2] (fun t : ℕ => 2 * (t : ℝ) ^ (-(1 : ℝ))) = 2 ∧
    montana_r2 [1, 2] (fun t : ℕ => 2 * (t : ℝ) ^ (-(1 : ℝ))) = 1 ∧
    ∀ c ∈ ([1, 2] : List ℕ),
      montana_eval [1, 2] (fun t : ℕ => 2 * (t : ℝ) ^ (-(1 : ℝ))) (c : ℝ) =
        2 * (c : ℝ) ^ (-(1 : ℝ))) :=
  ⟨⟨by norm_num, by norm_num, by decide,
      ⟨1, by decide, 2, by decide, by decide⟩, fun c _ => rfl⟩,
    C4_roundtrip_amended [1, 2] _ 1 2 (by norm_num) (by norm_num) (by decide)
      ⟨1, by decide, 2, by decide, by decide⟩ (fun c _ => rfl)⟩

/-! ## Annual-maxima extraction (`Utils.calculate_annual_max_rainfall`,
utils.py lines 136-153)

For one station the code takes the hourly series (one value per timestamp, in
the order of the sorted index), filters the rows of one calendar year, runs
`rolling(window=w, min_periods=1).sum()` on that slice and takes its `.max()`.
An observation is a `(year, value)` pair; the list order is the chronological
order of the dataframe index. -/

structure Obs where
  year : Int
  value : ℝ

/-- The fixed window list `windows = [1, 2, 3, 6, 12, 24]` (utils.py line 131). -/
def windows : List ℕ := [1, 2, 3, 6, 12, 24]

/-- `station_data[station_data['Year'] == year][station]` (utils.py line 143):
the year-`y` rows of the series, in chronological order. -/
def yearSlice (series : List Obs) (y : Int) : List ℝ :=
  (series.filter fun o => o.year == y).map Obs.value

/-- Value at position `i` of `rolling(window=w, min_periods=1).sum()`: the sum
of the last `min (w, i+1)` values up to position `i`. -/
noncomputable def rollingSumAt (xs : List ℝ) (w i : ℕ) : ℝ :=
  ((xs.take (i + 1)).drop (i + 1 - w)).sum

/-- The full rolling-sum series (utils.py line 146). -/
noncomputable def rollingSums (xs : List ℝ) (w : ℕ) : List ℝ :=
  (List.range xs.length).map (rollingSumAt xs w)

/-- `max_values_for_year[f'{w}h'] = rolling_sum.max()` (utils.py line 147);
`⊥` models pandas' NaN on an empty slice. -/
noncomputable def annualMaxEntry (series : List Obs) (y : Int) (w : ℕ) : WithBot ℝ :=
  (rollingSums (yearSlice series y) w).maximum

/-- C6: for every station series, every calendar year and every window `w` in
`[1,2,3,6,12,24]`, the annual-maxima entry is the maximum of the
`min_periods=1` rolling sum over only that year's chronologically ordered
slice; every value of the slice stems from a year-`y` observation, and every
rolling window sums a run of observations all from year `y`, so no window
includes observations from two different calendar years. -/
theorem C6_annual_maxima (series : List Obs) (y : Int) (w : ℕ) (hw : w ∈ windows) :
    annualMaxEntry series y w = (rollingSums (yearSlice series y) w).maximum ∧
    (∀ v ∈ yearSlice series y, ∃ o ∈ series, o.year = y ∧ o.value = v) ∧
    ∀ i < (yearSlice series y).length,
      ∃ sub : List Obs, sub.Sublist series ∧ (∀ o ∈ sub, o.year = y) ∧
        rollingSumAt (yearSlice series y) w i = (sub.map Obs.value).sum := by
  refine ⟨rfl, ?_, ?_⟩
  · intro v hv
    obtain ⟨o, ho, hov⟩ := List.mem_map.mp hv
    obtain ⟨hos, hoy⟩ := List.mem_filter.mp ho
    exact ⟨o, hos, beq_iff_eq.mp hoy, hov⟩
  · intro i _
    refine ⟨((series.filter fun o => o.year == y).take (i + 1)).drop (i + 1 - w),
      ?_, ?_, ?_⟩
    · exact ((List.drop_sublist _ _).trans (List.take_sublist _ _)).trans
        (List.filter_sublist series)
    · intro o ho
      have hof : o ∈ series.filter fun o => o.year == y :=
        (((List.drop_sublist _ _).trans (List.take_sublist _ _)).subset) ho
      exact beq_iff_eq.mp (List.mem_filter.mp hof).2
    · rw [rollingSumAt, yearSlice, ← List.map_take, ← List.map_drop]

/-- A concrete two-year hourly series for the C6 witness. -/
noncomputable def wSeries : List Obs :=
  [⟨2020, 1⟩, ⟨2020, 2⟩, ⟨2020, 4⟩, ⟨2021, 3⟩]

theorem C6_annual_maxima_witness :
    24 ∈ windows ∧
    (annualMaxEntry wSeries 2020 24 =
        (rollingSums (yearSlice wSeries 2020) 24).maximum ∧
    (∀ v ∈ yearSlice wSeries 2020, ∃ o ∈ wSeries, o.year = 2020 ∧ o.value = v) ∧
    ∀ i < (yearSlice wSeries 2020).length,
      ∃ sub : List Obs, sub.Sublist wSeries ∧ (∀ o ∈ sub, o.year = 2020) ∧
        rollingSumAt (yearSlice wSeries 2020) 24 i = (sub.map Obs.value).sum) :=
  ⟨by decide, C6_annual_maxima wSeries 2020 24 (by decide)⟩

/-! ## Point queries (`IDF.get_intensity`, `IDF.get_rainfall_depth`,
idf.py lines 429-483)

`get_intensity` first checks `return_period not in self.return_periods` and
raises (the spec's `ParameterNotFoundError`; a `ValueError` in the Python
source); otherwise it reads the fitted Montana parameters — never the Gumbel
depth or intensity tables — and returns `beta * duration ** (-alpha)`.
`get_rainfall_depth` delegates to `get_intensity` (so the exception
propagates unchanged) and multiplies the result by `duration`. -/

inductive QueryError where
  | parameterNotFound

open Classical in
/-- Embedding of `IDF.get_intensity`. -/
noncomputable def get_intensity (s : IDFState) (duration T : ℝ) :
    Except QueryError ℝ :=
  if T ∈ s.return_periods then
    Except.ok (montana_b s T * duration ^ (-(montana_a s T)))
  else Except.error QueryError.parameterNotFound

/-- Embedding of `IDF.get_rainfall_depth`: `intensity * duration`, with the
exception from `get_intensity` propagating. -/
noncomputable def get_rainfall_depth (s : IDFState) (duration T : ℝ) :
    Except QueryError ℝ :=
  (get_intensity s duration T).map fun i => i * duration

/-- C7: for every duration and return period `T`, if `T` is not among the
analyzed return periods then the point intensity query raises
`ParameterNotFoundError` and the point depth query raises the same error by
delegation; if `T` is among the analyzed set, neither query raises. -/
theorem C7_point_query_errors (s : IDFState) (d T : ℝ) :
    (T ∉ s.return_periods →
      get_intensity s d T = Except.error QueryError.parameterNotFound ∧
      get_rainfall_depth s d T = Except.error QueryError.parameterNotFound) ∧
    (T ∈ s.return_periods →
      (∃ v, get_intensity s d T = Except.ok v) ∧
      ∃ v, get_rainfall_depth s d T = Except.ok v) := by
  constructor
  · intro hT
    have h1 : get_intensity s d T = Except.error QueryError.parameterNotFound := by
      rw [get_intensity, if_neg hT]
    exact ⟨h1, by rw [get_rainfall_depth, h1]; rfl⟩
  · intro hT
    have h1 : get_intensity s d T =
        Except.ok (montana_b s T * d ^ (-(montana_a s T))) := by
      rw [get_intensity, if_pos hT]
    exact ⟨⟨_, h1⟩, _, by rw [get_rainfall_depth, h1]; rfl⟩

theorem C7_point_query_errors_witness :
    ((7 : ℝ) ∉ wState.return_periods ∧
      get_intensity wState 4 7 = Except.error QueryError.parameterNotFound ∧
      get_rainfall_depth wState 4 7 = Except.error QueryError.parameterNotFound) ∧
    ((5 : ℝ) ∈ wState.return_periods ∧
      (∃ v, get_intensity wState 4 5 = Except.ok v) ∧
      ∃ v, get_rainfall_depth wState 4 5 = Except.ok v) :=
  ⟨⟨by norm_num [wState],
      (C7_point_query_errors wState 4 7).1 (by norm_num [wState])⟩,
    ⟨by norm_num [wState],
      (C7_point_query_errors wState 4 5).2 (by norm_num [wState])⟩⟩

/-- C10: for every duration `d > 0` and analyzed return period `T`, the point
intensity query returns `b(T) * d^(-a(T))` computed from the fitted Montana
parameters, and the point depth query returns exactly that intensity times
`d`.  Neither query refers to the Gumbel depth/intensity tables or to the
fitted duration columns: `d` ranges over all positive reals, not just
`s.cols`. -/
theorem C10_point_depth_montana (s : IDFState) (d T : ℝ) (hd : 0 < d)
    (hT : T ∈ s.return_periods) :
    get_intensity s d T = Except.ok (montana_b s T * d ^ (-(montana_a s T))) ∧
    get_rainfall_depth s d T =
      Except.ok (montana_b s T * d ^ (-(montana_a s T)) * d) := by
  have h1 : get_intensity s d T =
      Except.ok (montana_b s T * d ^ (-(montana_a s T))) := by
    rw [get_intensity, if_pos hT]
  exact ⟨h1, by rw [get_rainfall_depth, h1]; rfl⟩

theorem C10_point_depth_montana_witness :
    (0 : ℝ) < 7 / 2 ∧ (10 : ℝ) ∈ wState.return_periods ∧
    (get_intensity wState (7 / 2) 10 =
      Except.ok (montana_b wState 10 * (7 / 2 : ℝ) ^ (-(montana_a wState 10))) ∧
    get_rainfall_depth wState (7 / 2) 10 =
      Except.ok (montana_b wState 10 * (7 / 2 : ℝ) ^ (-(montana_a wState 10)) * (7 / 2))) :=
  ⟨by norm_num, by norm_num [wState],
    C10_point_depth_montana wState (7 / 2) 10 (by norm_num) (by norm_num [wState])⟩

/-! ## File loading dispatch (`IDF._load_dataframe`, idf.py lines 103-112)

The dispatch looks only at the path suffix: `.xls`/`.xlsx` goes to
`pd.read_excel`, `.csv` to `pd.read_csv`, anything else raises an unsupported
format error (the spec's `UnsupportedFormatError`) without touching the file
content.  The two pandas readers are abstracted as `Option` values (`none` is
a read failure); choosing unsupported output independently of them captures
"before any parsing is attempted". -/

inductive FileKind where
  | excel
  | csv
  | unsupported

/-- Python's `str.endswith`, as a suffix test on the character sequences of
the two strings. -/
def str_endswith (s suffix : String) : Bool :=
  suffix.data.isSuffixOf s.data

/-- The suffix dispatch of `IDF._load_dataframe` (idf.py lines 105-110). -/
def classify_path (path : String) : FileKind :=
  if str_endswith path ".xls" || str_endswith path ".xlsx" then FileKind.excel
  else if str_endswith path ".csv" then FileKind.csv
  else FileKind.unsupported

inductive LoadError where
  | unsupportedFormat
  | readFailure

/-- Embedding of `IDF._load_dataframe`'s loading step, abstracted over the
outcome of the two pandas readers. -/
def load_dataframe {α : Type _} (path : String) (readExcel readCsv : Option α) :
    Except LoadError α :=
  match classify_path path with
  | FileKind.excel =>
      match readExcel with
      | some t => Except.ok t
      | none => Except.error LoadError.readFailure
  | FileKind.csv =>
      match readCsv with
      | some t => Except.ok t
      | none => Except.error LoadError.readFailure
  | FileKind.unsupported => Except.error LoadError.unsupportedFormat

/-- C8: for every input path whose extension is not `.csv`, `.xls` or
`.xlsx`, loading raises `UnsupportedFormatError` regardless of what the file
readers would return — i.e. before any parsing of the content is attempted. -/
theorem C8_unsupported_extension {α : Type _} (path : String)
    (readExcel readCsv : Option α)
    (h1 : str_endswith path ".xls" = false) (h2 : str_endswith path ".xlsx" = false)
    (h3 : str_endswith path ".csv" = false) :
    load_dataframe path readExcel readCsv =
      Except.error LoadError.unsupportedFormat := by
  simp [load_dataframe, classify_path, h1, h2, h3]

theorem C8_unsupported_extension_witness :
    (str_endswith "data.txt" ".xls" = false ∧ str_endswith "data.txt" ".xlsx" = false ∧
      str_endswith "data.txt" ".csv" = false) ∧
    load_dataframe "data.txt" (some 0) (some 0) =
      Except.error LoadError.unsupportedFormat :=
  ⟨⟨by decide, by decide, by decide⟩,
    C8_unsupported_extension "data.txt" (some 0) (some 0)
      (by decide) (by decide) (by decide)⟩

/-! ## CSV encoding fallback

`Utils.transform_to_hourly_excel` (utils.py lines 50-58) tries
`pd.read_csv(..., encoding='utf-8')`, on `UnicodeDecodeError` retries with
`latin-1`, and on a second `UnicodeDecodeError` with `cp1252`.
`IDF._load_dataframe` (idf.py line 108) calls `pd.read_csv(self.data_path)`
with pandas' default utf-8 encoding and no fallback.  A CSV file is
abstracted by the outcome of decoding it under each of the three encodings
(`none` models a `UnicodeDecodeError`). -/

structure CSVContent (α : Type _) where
  utf8 : Option α
  latin1 : Option α
  cp1252 : Option α

/-- CSV reading of `Utils.transform_to_hourly_excel`: utf-8, then latin-1,
then cp1252. -/
def transform_read_csv {α : Type _} (c : CSVContent α) : Option α :=
  match c.utf8 with
  | some t => some t
  | none =>
      match c.latin1 with
      | some t => some t
      | none => c.cp1252

/-- CSV reading of `IDF._load_dataframe`: pandas' default utf-8 only. -/
def idf_read_csv {α : Type _} (c : CSVContent α) : Option α := c.utf8

/-- C9 counterexample: a CSV file that fails utf-8 decoding but decodes under
latin-1.  The raw-series transformer succeeds with latin-1, but the IDF
loader — one of the two loaders the claim covers — fails instead of falling
back, so loading does not always succeed with the first decoding encoding. -/
theorem C9_encoding_counterexample :
    idf_read_csv (⟨none, some 0, none⟩ : CSVContent ℕ) = none ∧
    transform_read_csv (⟨none, some 0, none⟩ : CSVContent ℕ) = some 0 :=
  ⟨rfl, rfl⟩

/-- C9 (amended): the raw-series transformer's CSV reader attempts utf-8,
then latin-1, then cp1252 in exactly that fallback order, succeeding with the
first encoding that decodes; the IDF annual-maxima loader reads CSV with the
default utf-8 encoding only, with no fallback. -/
theorem C9_encoding_amended {α : Type _} (c : CSVContent α) :
    (∀ t, c.utf8 = some t → transform_read_csv c = some t) ∧
    (∀ t, c.utf8 = none → c.latin1 = some t → transform_read_csv c = some t) ∧
    (c.utf8 = none → c.latin1 = none → transform_read_csv c = c.cp1252) ∧
    idf_read_csv c = c.utf8 := by
  refine ⟨?_, ?_, ?_, rfl⟩ <;> intros <;> simp_all [transform_read_csv]

theorem C9_encoding_amended_witness :
    transform_read_csv (⟨some 3, none, none⟩ : CSVContent ℕ) = some 3 ∧
    transform_read_csv (⟨none, some 4, none⟩ : CSVContent ℕ) = some 4 ∧
    transform_read_csv (⟨none, none, some 5⟩ : CSVContent ℕ) = some 5 ∧
    idf_read_csv (⟨some 3, none, none⟩ : CSVContent ℕ) = some 3 :=
  ⟨(C9_encoding_amended (⟨some 3, none, none⟩ : CSVContent ℕ)).1 3 rfl,
    (C9_encoding_amended (⟨none, some 4, none⟩ : CSVContent ℕ)).2.1 4 rfl rfl,
    (C9_encoding_amended (⟨none, none, some 5⟩ : CSVContent ℕ)).2.2.1 rfl rfl,
    (C9_encoding_amended (⟨some 3, none, none⟩ : CSVContent ℕ)).2.2.2⟩

end IDFVerify
